import Mathlib

/-!
Verification of the SignMeet room/signaling server (`src/backend/server.py`).

The Python source is shallowly embedded: the MongoDB collections become a
`DB` record of lists, the Socket.IO room table becomes an association list
from room name to member sids, and every HTTP / Socket.IO handler becomes a
pure function returning the updated state together with the list of
`sio.emit` calls it performed.  Timestamps, fresh UUIDs and the external
classifier result are passed in as parameters, since the handlers only
consume them.
-/

namespace SignMeet

/-- `Room` pydantic model (server.py lines 63-68). `created_at` is a
timestamp supplied by the caller. -/
structure Room where
  id : String
  name : String
  created_at : Nat
  participants : List String
  max_participants : Nat
  deriving Repr, DecidableEq

/-- `Participant` pydantic model (server.py lines 74-78). -/
structure Participant where
  id : String
  name : String
  room_id : String
  joined_at : Nat
  deriving Repr, DecidableEq

/-- `Caption` pydantic model (server.py lines 88-94).  The float confidence
is modelled as a rational. -/
structure Caption where
  id : String
  text : String
  participant_name : String
  room_id : String
  timestamp : Nat
  confidence : Rat
  deriving Repr, DecidableEq

/-- `PredictionRequest` pydantic model (server.py lines 83-86).  The image
payload itself is irrelevant to the handlers once the classifier result is
given, so it is omitted. -/
structure PredictionRequest where
  room_id : String
  participant_id : String
  deriving Repr, DecidableEq

/-- The MongoDB collections used by the handlers. -/
structure DB where
  rooms : List Room
  participants : List Participant
  captions : List Caption
  deriving Repr, DecidableEq

/-- Payload of a `sio.emit` call, one constructor per event kind emitted by
the source. -/
inductive Payload where
  | participantJoined (participant : Participant) (room_id : String)
  | userJoined (sid : String) (participant_id : Option String)
  | userLeft (sid : String)
  | newCaption (caption : Caption)
  | webrtcOffer (offer : String) (from_sid : String)
  | webrtcAnswer (answer : String) (from_sid : String)
  | webrtcIceCandidate (candidate : String) (from_sid : String)
  | newMessage (message : String) (participant_name : String) (timestamp : Nat)
      (from_sid : String)
  deriving Repr, DecidableEq

/-- One `sio.emit(event, payload, room=..., skip_sid=...)` call.
`room = none` is a broadcast to every connection. -/
structure Emit where
  event : String
  payload : Payload
  room : Option String
  skip_sid : Option String
  deriving Repr, DecidableEq

/-- The Socket.IO server's room table: connected sids, and for each socket
room name the set (as a duplicate-free list) of member sids.  python-socketio
additionally keeps each sid in a personal room named after the sid itself. -/
structure SioState where
  connected : List String
  rooms : List (String × List String)
  deriving Repr, DecidableEq

/-- Member sids of a socket room (empty when the room is unknown). -/
def SioState.members (s : SioState) (room : String) : List String :=
  match s.rooms.find? (fun e => e.1 == room) with
  | some e => e.2
  | none => []

/-- `sio.enter_room(sid, room)`: add the sid to the room's member set. -/
def SioState.enterRoom (s : SioState) (sid room : String) : SioState :=
  match s.rooms.find? (fun e => e.1 == room) with
  | some _ =>
      { s with rooms := s.rooms.map (fun e =>
          if e.1 == room then (e.1, if sid ∈ e.2 then e.2 else e.2 ++ [sid])
          else e) }
  | none => { s with rooms := s.rooms ++ [(room, [sid])] }

/-- `sio.leave_room(sid, room)`: remove the sid from the room's member set
(set semantics, as in python-socketio's room dict). -/
def SioState.leaveRoom (s : SioState) (sid room : String) : SioState :=
  { s with rooms := s.rooms.map (fun e =>
      if e.1 == room then (e.1, e.2.filter (fun x => x ≠ sid)) else e) }

/-- Connections that actually receive an emitted event: the target room's
members minus the skipped sid (a `room = none` emit reaches everyone). -/
def SioState.recipients (s : SioState) (e : Emit) : List String :=
  match e.room with
  | some r => (s.members r).filter (fun c => some c ≠ e.skip_sid)
  | none => s.connected.filter (fun c => some c ≠ e.skip_sid)

/-- A FastAPI `HTTPException`. -/
structure HTTPError where
  status_code : Nat
  detail : String
  deriving Repr, DecidableEq

/-- `update_one({"id": room_id}, {"$push": {"participants": pid}})`:
append `pid` to the participant list of the first room matching the id. -/
def pushParticipant : List Room → String → String → List Room
  | [], _, _ => []
  | r :: rs, rid, pid =>
    if r.id == rid then { r with participants := r.participants ++ [pid] } :: rs
    else r :: pushParticipant rs rid pid

/-- HTTP `POST /rooms/{room_id}/join` (server.py lines 194-226).
`freshPid` is the uuid4 generated for the new participant and `now` the
current timestamp.  Returns the handler result, the updated database and
the emitted events. -/
def join_room (db : DB) (room_id : String) (pname : String)
    (freshPid : String) (now : Nat) :
    Except HTTPError Participant × DB × List Emit :=
  match db.rooms.find? (fun r => r.id == room_id) with
  | none => (.error ⟨404, "Room not found"⟩, db, [])
  | some room =>
    if room.participants.length ≥ room.max_participants then
      (.error ⟨400, "Room is full"⟩, db, [])
    else
      let participant : Participant := ⟨freshPid, pname, room_id, now⟩
      let db' : DB :=
        { db with
          rooms := pushParticipant db.rooms room_id participant.id,
          participants := db.participants ++ [participant] }
      (.ok participant, db',
        [⟨"participant_joined", .participantJoined participant room_id,
          some room_id, none⟩])

/-- Capacity invariant of a single room: `|participants| ≤ max_participants`. -/
def roomCapOK (r : Room) : Prop :=
  r.participants.length ≤ r.max_participants

instance (r : Room) : Decidable (roomCapOK r) := by
  unfold roomCapOK; infer_instance

/-- Capacity invariant over the whole room collection. -/
def dbCapOK (db : DB) : Prop := ∀ r ∈ db.rooms, roomCapOK r

instance (db : DB) : Decidable (dbCapOK db) := by
  unfold dbCapOK; infer_instance

/-- Arguments of one HTTP join request. -/
structure JoinReq where
  room_id : String
  pname : String
  freshPid : String
  now : Nat
  deriving Repr, DecidableEq

/-- Database after running a sequence of HTTP join requests. -/
def runJoins (db : DB) (reqs : List JoinReq) : DB :=
  reqs.foldl (fun d q => (join_room d q.room_id q.pname q.freshPid q.now).2.1) db

/-- Python truthiness of the classifier label:
`None` and the empty string are falsy. -/
def labelTruthy : Option String → Bool
  | none => false
  | some s => s ≠ ""

/-- Response body of `POST /predict`. -/
structure PredictResponse where
  predicted_text : Option String
  confidence : Rat
  deriving Repr, DecidableEq

/-- Body of the `try:` block of `POST /predict` (server.py lines 231-258).
`predicted_text`/`confidence` is the classifier result of
`predict_sign(request.image_data)` (a classifier failure yields
`(none, 0)`), `freshCid` the uuid4 of the caption and `now` the current
timestamp.  The not-found branch raises `HTTPException(404, "Participant
not found")` (line 238). -/
def predict_body (db : DB) (request : PredictionRequest)
    (predicted_text : Option String) (confidence : Rat)
    (freshCid : String) (now : Nat) :
    Except HTTPError (PredictResponse × DB × List Emit) :=
  if labelTruthy predicted_text ∧ confidence > 7/10 then
    match db.participants.find? (fun p => p.id == request.participant_id) with
    | none => .error ⟨404, "Participant not found"⟩
    | some participant =>
        let caption : Caption :=
          ⟨freshCid, predicted_text.getD "", participant.name,
            request.room_id, now, confidence⟩
        .ok (⟨predicted_text, confidence⟩,
          { db with captions := db.captions ++ [caption] },
          [⟨"new_caption", .newCaption caption, some request.room_id, none⟩])
  else
    .ok (⟨none, confidence⟩, db, [])

/-- HTTP `POST /predict` (server.py lines 228-262).  The whole body runs
inside `try: ... except Exception:`, so any exception raised in the body —
including the deliberate `HTTPException(404, "Participant not found")` —
is caught and re-raised as `HTTPException(500, "Prediction failed")`. -/
def predict_sign_language (db : DB) (request : PredictionRequest)
    (predicted_text : Option String) (confidence : Rat)
    (freshCid : String) (now : Nat) :
    Except HTTPError PredictResponse × DB × List Emit :=
  match predict_body db request predicted_text confidence freshCid now with
  | .ok (resp, db', emits) => (.ok resp, db', emits)
  | .error _ => (.error ⟨500, "Prediction failed"⟩, db, [])

/-- Socket.IO `join_room` event handler (server.py lines 282-294).
`data.get` yields `none` for an absent key, and the `if room_id:` guard is
Python truthiness, under which an absent key and the empty string alike
make the handler do nothing.  Otherwise it enters the socket room and
emits `user_joined` to the room with `skip_sid=sid`. -/
def join_room_event (sio : SioState) (sid : String)
    (room_id : Option String) (participant_id : Option String) :
    SioState × List Emit :=
  match room_id with
  | none => (sio, [])
  | some rid =>
      if rid ≠ "" then
        (sio.enterRoom sid rid,
          [⟨"user_joined", .userJoined sid participant_id, some rid, some sid⟩])
      else (sio, [])

/-- Socket.IO `leave_room` event handler (server.py lines 296-303): under
the same `if room_id:` truthiness guard (absent key or empty string means
do nothing), it leaves the socket room then emits `user_left` to the room
with `skip_sid=sid`.  It never touches the database. -/
def leave_room_event (sio : SioState) (sid : String)
    (room_id : Option String) : SioState × List Emit :=
  match room_id with
  | none => (sio, [])
  | some rid =>
      if rid ≠ "" then
        (sio.leaveRoom sid rid,
          [⟨"user_left", .userLeft sid, some rid, some sid⟩])
      else (sio, [])

/-- The `leave_room` event seen at system level: the handler runs with the
database in scope but performs no database operation (server.py lines
296-303), so the database is passed through untouched. -/
def leave_room_system (db : DB) (sio : SioState) (sid : String)
    (room_id : Option String) : DB × SioState × List Emit :=
  (db, leave_room_event sio sid room_id)

/-- Socket.IO `disconnect` event (server.py lines 278-280).  The handler
body only logs; the python-socketio library itself removes the sid from
the connected set and from every socket room.  No event is emitted. -/
def disconnect (sio : SioState) (sid : String) : SioState × List Emit :=
  ({ connected := sio.connected.filter (fun c => c ≠ sid),
     rooms := sio.rooms.map (fun e => (e.1, e.2.filter (fun x => x ≠ sid))) },
   [])

/-- Socket.IO `webrtc_offer` event handler (server.py lines 305-315):
emits one `webrtc_offer` event to `room=target_sid` (the target's personal
room) carrying the payload and `from_sid=sid`.  It reads `room_id` from
the data but never uses it, consults no state, and performs no membership
check. -/
def webrtc_offer (sid : String) (target_sid : Option String)
    (offer : String) : List Emit :=
  [⟨"webrtc_offer", .webrtcOffer offer sid, target_sid, none⟩]

/-- Socket.IO `webrtc_answer` event handler (server.py lines 317-326). -/
def webrtc_answer (sid : String) (target_sid : Option String)
    (answer : String) : List Emit :=
  [⟨"webrtc_answer", .webrtcAnswer answer sid, target_sid, none⟩]

/-- Socket.IO `webrtc_ice_candidate` event handler
(server.py lines 328-337). -/
def webrtc_ice_candidate (sid : String) (target_sid : Option String)
    (candidate : String) : List Emit :=
  [⟨"webrtc_ice_candidate", .webrtcIceCandidate candidate sid, target_sid, none⟩]

/-! ### Helper lemmas -/

/-- Pushing a participant id onto the first room matching `rid` preserves
the capacity invariant, provided that room still had a free slot. -/
lemma pushParticipant_capOK (rooms : List Room) (rid pid : String) (room : Room)
    (hfind : rooms.find? (fun r => r.id == rid) = some room)
    (hlt : room.participants.length < room.max_participants)
    (hOK : ∀ r ∈ rooms, roomCapOK r) :
    ∀ r ∈ pushParticipant rooms rid pid, roomCapOK r := by
  induction rooms with
  | nil => simp at hfind
  | cons a rest ih =>
    cases ha : (a.id == rid) with
    | true =>
      simp only [List.find?_cons, ha] at hfind
      injection hfind with h
      subst h
      unfold pushParticipant
      rw [if_pos ha]
      intro r hr
      rcases List.mem_cons.mp hr with h1 | h2
      · subst h1
        unfold roomCapOK at *
        simp only [List.length_append, List.length_cons, List.length_nil]
        omega
      · exact hOK r (List.mem_cons_of_mem _ h2)
    | false =>
      simp only [List.find?_cons, ha] at hfind
      unfold pushParticipant
      rw [if_neg (by simp [ha])]
      intro r hr
      rcases List.mem_cons.mp hr with h1 | h2
      · subst h1; exact hOK _ (List.mem_cons_self _ _)
      · exact ih hfind (fun r hr => hOK r (List.mem_cons_of_mem _ hr)) r h2

/-- One HTTP join request preserves the capacity invariant. -/
lemma join_room_capOK (db : DB) (rid pname pid : String) (now : Nat)
    (hOK : dbCapOK db) : dbCapOK (join_room db rid pname pid now).2.1 := by
  unfold join_room
  cases hfind : db.rooms.find? (fun r => r.id == rid) with
  | none => exact hOK
  | some room =>
    by_cases hfull : room.participants.length ≥ room.max_participants
    · simp only [if_pos hfull]
      exact hOK
    · simp only [if_neg hfull]
      intro r hr
      exact pushParticipant_capOK db.rooms rid pid room hfind (by omega) hOK r hr

/-- `find?` by key commutes with a key-preserving map over an association
list. -/
lemma find?_map_keyfix (l : List (String × List String))
    (f : String × List String → String × List String)
    (hf : ∀ e, (f e).1 = e.1) (room : String) :
    (l.map f).find? (fun e => e.1 == room) =
      (l.find? (fun e => e.1 == room)).map f := by
  induction l with
  | nil => rfl
  | cons e l ih =>
    simp only [List.map_cons, List.find?_cons, hf e]
    cases h : (e.1 == room) <;> simp [h, ih]

/-- `leave_room` changes only the targeted socket room, from which the sid
is removed. -/
lemma members_leaveRoom (s : SioState) (sid rid room : String) :
    (s.leaveRoom sid rid).members room =
      if room = rid then (s.members room).filter (fun x => x ≠ sid)
      else s.members room := by
  obtain ⟨c, l⟩ := s
  unfold SioState.leaveRoom SioState.members
  dsimp only
  rw [find?_map_keyfix l _ (fun e => by split <;> rfl) room]
  cases hfind : l.find? (fun e => e.1 == room) with
  | none => by_cases h : room = rid <;> simp [h]
  | some e =>
    have he : e.1 = room := by
      have hp := List.find?_some hfind
      exact eq_of_beq hp
    by_cases h : room = rid
    · subst h; simp [he]
    · simp [he, h]

/-- `enter_room` changes only the targeted socket room, to which the sid
is appended unless already a member. -/
lemma members_enterRoom (s : SioState) (sid rid room : String) :
    (s.enterRoom sid rid).members room =
      if room = rid then
        (if sid ∈ s.members rid then s.members rid else s.members rid ++ [sid])
      else s.members room := by
  obtain ⟨c, l⟩ := s
  unfold SioState.enterRoom SioState.members
  dsimp only
  cases hfind : l.find? (fun e => e.1 == rid) with
  | some e0 =>
    rw [find?_map_keyfix l _ (fun e => by split <;> rfl) room]
    cases hfindr : l.find? (fun e => e.1 == room) with
    | none =>
      have hne : room ≠ rid := by
        intro h; subst h; rw [hfind] at hfindr; cases hfindr
      simp [hne]
    | some e =>
      have he : e.1 = room := by
        have hp := List.find?_some hfindr
        exact eq_of_beq hp
      by_cases h : room = rid
      · subst h
        rw [hfind] at hfindr
        injection hfindr with h2
        subst h2
        simp [he]
      · simp [he, h]
  | none =>
    rw [List.find?_append]
    cases hfindr : l.find? (fun e => e.1 == room) with
    | none =>
      by_cases h : room = rid
      · subst h; simp [List.find?_cons]
      · have h' : rid ≠ room := fun hh => h hh.symm
        have h2 : ¬ (rid == room) = true := by simp [h']
        simp [List.find?_cons, h2, h]
    | some e =>
      have hne : room ≠ rid := by
        intro h; subst h; rw [hfind] at hfindr; cases hfindr
      simp [hne]

/-- Disconnecting removes the sid from every socket room's member set. -/
lemma members_disconnect (s : SioState) (sid room : String) :
    (disconnect s sid).1.members room = (s.members room).filter (fun x => x ≠ sid) := by
  obtain ⟨c, l⟩ := s
  unfold disconnect SioState.members
  dsimp only
  rw [find?_map_keyfix l
    (fun e => (e.1, e.2.filter (fun x => x ≠ sid))) (fun e => rfl) room]
  cases hfind : l.find? (fun e => e.1 == room) with
  | none => simp
  | some e => simp

/-- Reduction of the socket `join_room` handler when the room id passes
the truthiness guard. -/
lemma join_room_event_some (sio : SioState) (sid rid : String)
    (pid : Option String) (h : rid ≠ "") :
    join_room_event sio sid (some rid) pid =
      (sio.enterRoom sid rid,
        [⟨"user_joined", .userJoined sid pid, some rid, some sid⟩]) := by
  unfold join_room_event
  dsimp only
  rw [if_pos h]

/-- Reduction of the socket `leave_room` handler when the room id passes
the truthiness guard. -/
lemma leave_room_event_some (sio : SioState) (sid rid : String)
    (h : rid ≠ "") :
    leave_room_event sio sid (some rid) =
      (sio.leaveRoom sid rid,
        [⟨"user_left", .userLeft sid, some rid, some sid⟩]) := by
  unfold leave_room_event
  dsimp only
  rw [if_pos h]

/-! ### Claims -/

/-- C1: a join request against a room whose participant list already has
`max_participants` entries fails with `"Room is full"` (HTTP 400) and
leaves the whole database — the room's participant list and the
participant store — unchanged, emitting nothing; and after any sequence of
HTTP join operations every room satisfies
`|participants| ≤ max_participants`. -/
theorem join_room_full_rejected_and_capacity_invariant
    (db : DB) (rid pname pid : String) (now : Nat) (room : Room)
    (hfind : db.rooms.find? (fun r => r.id == rid) = some room)
    (hfull : room.participants.length = room.max_participants) :
    join_room db rid pname pid now = (.error ⟨400, "Room is full"⟩, db, [])
    ∧ ∀ (db₀ : DB) (reqs : List JoinReq),
        dbCapOK db₀ → dbCapOK (runJoins db₀ reqs) := by
  constructor
  · unfold join_room
    rw [hfind]
    dsimp only
    rw [if_pos (show room.participants.length ≥ room.max_participants by omega)]
  · intro db₀ reqs h
    unfold runJoins
    induction reqs generalizing db₀ with
    | nil => exact h
    | cons q rest ih =>
      exact ih _ (join_room_capOK db₀ q.room_id q.pname q.freshPid q.now h)

/-- Witness for C1: a concrete full room (capacity 2, two members) rejects
a third join unchanged, and a concrete join sequence keeps the invariant. -/
theorem join_room_full_rejected_and_capacity_invariant_witness :
    join_room ⟨[⟨"r1", "Demo", 0, ["p1", "p2"], 2⟩], [], []⟩ "r1" "Carol" "p3" 9
      = (.error ⟨400, "Room is full"⟩, ⟨[⟨"r1", "Demo", 0, ["p1", "p2"], 2⟩], [], []⟩, [])
    ∧ dbCapOK (runJoins ⟨[⟨"r1", "Demo", 0, [], 2⟩], [], []⟩
        [⟨"r1", "Alice", "pA", 1⟩, ⟨"r1", "Bob", "pB", 2⟩, ⟨"r1", "Carol", "pC", 3⟩]) :=
  ⟨(join_room_full_rejected_and_capacity_invariant
      ⟨[⟨"r1", "Demo", 0, ["p1", "p2"], 2⟩], [], []⟩ "r1" "Carol" "p3" 9
      ⟨"r1", "Demo", 0, ["p1", "p2"], 2⟩ rfl rfl).1,
   (join_room_full_rejected_and_capacity_invariant
      ⟨[⟨"r1", "Demo", 0, ["p1", "p2"], 2⟩], [], []⟩ "r1" "Carol" "p3" 9
      ⟨"r1", "Demo", 0, ["p1", "p2"], 2⟩ rfl rfl).2
     ⟨[⟨"r1", "Demo", 0, [], 2⟩], [], []⟩ _ (by decide)⟩

/-- C7: joining a room id that is not in the registry yields exactly the
`"Room not found"` (HTTP 404) failure with the database unchanged and no
emits — in particular never `"Room is full"` and never success, whatever
participant name was supplied. -/
theorem join_nonexistent_room_not_found
    (db : DB) (rid pname pid : String) (now : Nat)
    (hfind : db.rooms.find? (fun r => r.id == rid) = none) :
    join_room db rid pname pid now = (.error ⟨404, "Room not found"⟩, db, []) := by
  unfold join_room
  rw [hfind]

/-- Witness for C7: joining any room id on an empty registry is a 404. -/
theorem join_nonexistent_room_not_found_witness :
    join_room ⟨[], [], []⟩ "missing" "Alice" "p1" 0
      = (.error ⟨404, "Room not found"⟩, ⟨[], [], []⟩, []) :=
  join_nonexistent_room_not_found ⟨[], [], []⟩ "missing" "Alice" "p1" 0 rfl

/-- Shared accept-path computation of `POST /predict`: a nonempty label,
confidence above 0.7 and a known participant yield exactly one caption
appended to the store and exactly one `new_caption` emit to the request's
room id. -/
lemma predict_accept_eq (db : DB) (req : PredictionRequest) (t : String)
    (conf : Rat) (cid : String) (now : Nat) (p : Participant)
    (ht : t ≠ "") (hconf : conf > 7/10)
    (hfind : db.participants.find? (fun q => q.id == req.participant_id) = some p) :
    predict_sign_language db req (some t) conf cid now =
      (.ok ⟨some t, conf⟩,
       { db with captions := db.captions ++ [⟨cid, t, p.name, req.room_id, now, conf⟩] },
       [⟨"new_caption", .newCaption ⟨cid, t, p.name, req.room_id, now, conf⟩,
         some req.room_id, none⟩]) := by
  unfold predict_sign_language predict_body
  rw [if_pos ⟨by simp [labelTruthy, ht], hconf⟩, hfind]
  rfl

/-- C2: with an absent label or confidence at most 0.7 the predict handler
creates no caption, changes no state, broadcasts nothing, and returns the
confidence with a null text; with a nonempty label, confidence above 0.7
and a known participant id it persists exactly one caption, emits exactly
one `new_caption` to the room, and returns the label and confidence. -/
theorem predict_gate_and_accept
    (db : DB) (req : PredictionRequest) (pt : Option String) (conf : Rat)
    (cid : String) (now : Nat) :
    ((pt = none ∨ conf ≤ 7/10) →
      predict_sign_language db req pt conf cid now = (.ok ⟨none, conf⟩, db, []))
    ∧ (∀ t p, pt = some t → t ≠ "" → conf > 7/10 →
        db.participants.find? (fun q => q.id == req.participant_id) = some p →
        predict_sign_language db req pt conf cid now =
          (.ok ⟨some t, conf⟩,
           { db with captions := db.captions ++ [⟨cid, t, p.name, req.room_id, now, conf⟩] },
           [⟨"new_caption", .newCaption ⟨cid, t, p.name, req.room_id, now, conf⟩,
             some req.room_id, none⟩])) := by
  constructor
  · intro h
    unfold predict_sign_language predict_body
    rw [if_neg (by
      rcases h with h | h
      · subst h; simp [labelTruthy]
      · exact fun hc => absurd hc.2 (not_lt.mpr h))]
  · intro t p hpt ht hconf hfind
    subst hpt
    exact predict_accept_eq db req t conf cid now p ht hconf hfind

/-- Witness for C2: confidence 0.69 is rejected without effect; confidence
0.71 with a known participant persists and broadcasts one caption. -/
theorem predict_gate_and_accept_witness :
    predict_sign_language ⟨[], [⟨"p1", "Alice", "r1", 0⟩], []⟩ ⟨"r1", "p1"⟩
        (some "HELLO") (69/100) "c1" 5
      = (.ok ⟨none, 69/100⟩, ⟨[], [⟨"p1", "Alice", "r1", 0⟩], []⟩, [])
    ∧ predict_sign_language ⟨[], [⟨"p1", "Alice", "r1", 0⟩], []⟩ ⟨"r1", "p1"⟩
        (some "HELLO") (71/100) "c1" 5
      = (.ok ⟨some "HELLO", 71/100⟩,
         ⟨[], [⟨"p1", "Alice", "r1", 0⟩], [⟨"c1", "HELLO", "Alice", "r1", 5, 71/100⟩]⟩,
         [⟨"new_caption", .newCaption ⟨"c1", "HELLO", "Alice", "r1", 5, 71/100⟩,
           some "r1", none⟩]) :=
  ⟨(predict_gate_and_accept ⟨[], [⟨"p1", "Alice", "r1", 0⟩], []⟩ ⟨"r1", "p1"⟩
      (some "HELLO") (69/100) "c1" 5).1 (Or.inr (by norm_num)),
   (predict_gate_and_accept ⟨[], [⟨"p1", "Alice", "r1", 0⟩], []⟩ ⟨"r1", "p1"⟩
      (some "HELLO") (71/100) "c1" 5).2 "HELLO" ⟨"p1", "Alice", "r1", 0⟩
      rfl (by decide) (by norm_num) rfl⟩

/-- C3 (code bug): when the gate passes but the participant id is unknown,
the body of the handler does raise the typed
`HTTPException(404, "Participant not found")` — but the surrounding
`except Exception` swallows it and re-raises
`HTTPException(500, "Prediction failed")`, so the caller observes a 500,
not the typed not-found failure.  No caption is created or broadcast. -/
theorem predict_unknown_participant_error_converted
    (db : DB) (req : PredictionRequest) (t : String) (conf : Rat)
    (cid : String) (now : Nat)
    (ht : t ≠ "") (hconf : conf > 7/10)
    (hfind : db.participants.find? (fun q => q.id == req.participant_id) = none) :
    predict_body db req (some t) conf cid now
      = .error ⟨404, "Participant not found"⟩
    ∧ predict_sign_language db req (some t) conf cid now
      = (.error ⟨500, "Prediction failed"⟩, db, []) := by
  have hb : predict_body db req (some t) conf cid now
      = .error ⟨404, "Participant not found"⟩ := by
    unfold predict_body
    rw [if_pos ⟨by simp [labelTruthy, ht], hconf⟩, hfind]
  exact ⟨hb, by unfold predict_sign_language; rw [hb]⟩

/-- Witness for C3: confidence 0.8 with label `"HELLO"` and an empty
participant store surfaces a 500, not the 404 the body raised. -/
theorem predict_unknown_participant_error_converted_witness :
    predict_body ⟨[], [], []⟩ ⟨"r1", "ghost"⟩ (some "HELLO") (8/10) "c1" 5
      = .error ⟨404, "Participant not found"⟩
    ∧ predict_sign_language ⟨[], [], []⟩ ⟨"r1", "ghost"⟩ (some "HELLO") (8/10) "c1" 5
      = (.error ⟨500, "Prediction failed"⟩, ⟨[], [], []⟩, []) :=
  predict_unknown_participant_error_converted ⟨[], [], []⟩ ⟨"r1", "ghost"⟩
    "HELLO" (8/10) "c1" 5 (by decide) (by norm_num) rfl

/-- C10: the accept path never validates the request's room id: even when
no room with that id exists in the registry and the participant's owning
room is a different one, the caption is built, persisted and broadcast
with the request's room id taken verbatim. -/
theorem predict_room_id_taken_verbatim
    (db : DB) (req : PredictionRequest) (t : String) (conf : Rat)
    (cid : String) (now : Nat) (p : Participant)
    (hnoroom : db.rooms.find? (fun r => r.id == req.room_id) = none)
    (hother : p.room_id ≠ req.room_id)
    (ht : t ≠ "") (hconf : conf > 7/10)
    (hfind : db.participants.find? (fun q => q.id == req.participant_id) = some p) :
    predict_sign_language db req (some t) conf cid now =
      (.ok ⟨some t, conf⟩,
       { db with captions := db.captions ++ [⟨cid, t, p.name, req.room_id, now, conf⟩] },
       [⟨"new_caption", .newCaption ⟨cid, t, p.name, req.room_id, now, conf⟩,
         some req.room_id, none⟩]) :=
  predict_accept_eq db req t conf cid now p ht hconf hfind

/-- Witness for C10: an empty room registry and a participant owned by
room `"other"` still produce a caption and broadcast for the requested
room `"r1"`. -/
theorem predict_room_id_taken_verbatim_witness :
    predict_sign_language ⟨[], [⟨"p1", "Alice", "other", 0⟩], []⟩ ⟨"r1", "p1"⟩
        (some "HELLO") (8/10) "c1" 5
      = (.ok ⟨some "HELLO", 8/10⟩,
         ⟨[], [⟨"p1", "Alice", "other", 0⟩], [⟨"c1", "HELLO", "Alice", "r1", 5, 8/10⟩]⟩,
         [⟨"new_caption", .newCaption ⟨"c1", "HELLO", "Alice", "r1", 5, 8/10⟩,
           some "r1", none⟩]) :=
  predict_room_id_taken_verbatim ⟨[], [⟨"p1", "Alice", "other", 0⟩], []⟩ ⟨"r1", "p1"⟩
    "HELLO" (8/10) "c1" 5 ⟨"p1", "Alice", "other", 0⟩ rfl (by decide) (by decide)
    (by norm_num) rfl

/-- Removing a sid from a socket room twice is the same as removing it
once. -/
lemma leaveRoom_idem (s : SioState) (sid rid : String) :
    (s.leaveRoom sid rid).leaveRoom sid rid = s.leaveRoom sid rid := by
  obtain ⟨c, l⟩ := s
  unfold SioState.leaveRoom
  dsimp only
  congr 1
  induction l with
  | nil => rfl
  | cons e l ih =>
    simp only [List.map_cons, ih]
    congr 1
    by_cases h : (e.1 == rid) = true
    · simp only [if_pos h, if_pos (show ((e.1, e.2.filter fun x => x ≠ sid).1 == rid) = true from h)]
      rw [List.filter_eq_self.mpr (fun a ha => (List.mem_filter.mp ha).2)]
    · rw [if_neg h, if_neg h]

/-- C4 counterexample: a connection leaves room `"r1"` whose registry entry
holds participant `"p1"`; afterwards the room's participant list and the
participant record store are exactly as before — the leave handler touches
only the Socket.IO room table, never the registry or the store. -/
theorem leave_room_counterexample :
    (leave_room_system ⟨[⟨"r1", "Demo", 0, ["p1"], 6⟩], [⟨"p1", "Alice", "r1", 0⟩], []⟩
        ⟨["c1", "c2"], [("r1", ["c1", "c2"])]⟩ "c1" (some "r1")).1.rooms
      = [⟨"r1", "Demo", 0, ["p1"], 6⟩]
    ∧ (leave_room_system ⟨[⟨"r1", "Demo", 0, ["p1"], 6⟩], [⟨"p1", "Alice", "r1", 0⟩], []⟩
        ⟨["c1", "c2"], [("r1", ["c1", "c2"])]⟩ "c1" (some "r1")).1.participants
      = [⟨"p1", "Alice", "r1", 0⟩] :=
  ⟨rfl, rfl⟩

/-- C4 amended: for a room id that passes the `if room_id:` truthiness
guard, the `leave_room` event removes the connection (not any participant
record) from the socket room's member set, emits one `user_left` to the
room excluding the leaver, and never touches the database; an absent or
empty (Python-falsy) room id is a no-op; a repeated leave returns no error
and leaves the socket state exactly as after the first leave. -/
theorem leave_room_socket_removal_idempotent (db : DB) (sio : SioState)
    (sid : String) (rid? : Option String) :
    (leave_room_system db sio sid rid?).1 = db
    ∧ (∀ rid, rid? = some rid → rid ≠ "" →
        sid ∉ (leave_room_event sio sid rid?).1.members rid
        ∧ (leave_room_event sio sid rid?).2
            = [⟨"user_left", .userLeft sid, some rid, some sid⟩]
        ∧ (leave_room_event (leave_room_event sio sid rid?).1 sid rid?).1
            = (leave_room_event sio sid rid?).1)
    ∧ (rid? = none ∨ rid? = some "" →
        leave_room_event sio sid rid? = (sio, [])) := by
  refine ⟨rfl, ?_, ?_⟩
  · intro rid h hne
    subst h
    rw [leave_room_event_some sio sid rid hne]
    refine ⟨?_, rfl, ?_⟩
    · show sid ∉ (sio.leaveRoom sid rid).members rid
      rw [members_leaveRoom, if_pos rfl]
      simp
    · show (leave_room_event (sio.leaveRoom sid rid) sid (some rid)).1
          = sio.leaveRoom sid rid
      rw [leave_room_event_some (sio.leaveRoom sid rid) sid rid hne]
      exact leaveRoom_idem sio sid rid
  · rintro (h | h) <;> subst h <;> rfl

/-- Witness for the amended C4: a concrete leave removes `"c1"` from the
socket room, leaves the database alone, and a second leave changes
nothing. -/
theorem leave_room_socket_removal_idempotent_witness :
    (leave_room_system ⟨[⟨"r1", "Demo", 0, ["p1"], 6⟩], [⟨"p1", "Alice", "r1", 0⟩], []⟩
        ⟨["c1", "c2"], [("r1", ["c1", "c2"])]⟩ "c1" (some "r1")).1
      = ⟨[⟨"r1", "Demo", 0, ["p1"], 6⟩], [⟨"p1", "Alice", "r1", 0⟩], []⟩
    ∧ "c1" ∉ (leave_room_event ⟨["c1", "c2"], [("r1", ["c1", "c2"])]⟩ "c1" (some "r1")).1.members "r1"
    ∧ (leave_room_event ⟨["c1", "c2"], [("r1", ["c1", "c2"])]⟩ "c1" (some "r1")).2
      = [⟨"user_left", .userLeft "c1", some "r1", some "c1"⟩]
    ∧ (leave_room_event (leave_room_event ⟨["c1", "c2"], [("r1", ["c1", "c2"])]⟩ "c1" (some "r1")).1
          "c1" (some "r1")).1
      = (leave_room_event ⟨["c1", "c2"], [("r1", ["c1", "c2"])]⟩ "c1" (some "r1")).1 := by
  obtain ⟨h1, h2, h3⟩ := leave_room_socket_removal_idempotent
    ⟨[⟨"r1", "Demo", 0, ["p1"], 6⟩], [⟨"p1", "Alice", "r1", 0⟩], []⟩
    ⟨["c1", "c2"], [("r1", ["c1", "c2"])]⟩ "c1" (some "r1")
  obtain ⟨h4, h5, h6⟩ := h2 "r1" rfl (by decide)
  exact ⟨h1, h4, h5, h6⟩

/-- C5 counterexample: connection `"c1"` is bound to room `"r1"` together
with the live connection `"c2"`, yet its disconnect emits no event at all —
in particular `"c2"` observes zero `user_left` events, not exactly one. -/
theorem disconnect_counterexample :
    "c2" ∈ (SioState.mk ["c1", "c2"] [("r1", ["c1", "c2"])]).members "r1"
    ∧ (disconnect ⟨["c1", "c2"], [("r1", ["c1", "c2"])]⟩ "c1").2 = [] := by
  exact ⟨by decide, rfl⟩

/-- C5 amended: a disconnect clears the connection's bindings — afterwards
the sid is a member of no socket room and is no longer connected — but the
application emits no `user_left` (or any other) event; the other
connections in the room observe nothing. -/
theorem disconnect_clears_binding_no_event (sio : SioState) (sid : String) :
    (disconnect sio sid).2 = []
    ∧ (∀ room, sid ∉ (disconnect sio sid).1.members room)
    ∧ sid ∉ (disconnect sio sid).1.connected := by
  refine ⟨rfl, ?_, ?_⟩
  · intro room
    rw [members_disconnect]
    simp
  · unfold disconnect
    simp

/-- C6: the offer relay handler consults neither the database nor the room
table — it unconditionally emits exactly one `webrtc_offer` event addressed
to the target's personal room, carrying the payload and
`from_sid` equal to the sender; in any Socket.IO state whose personal room
for the target holds exactly the target, that event is delivered to the
target and to no other connection. -/
theorem webrtc_offer_relay (sio : SioState) (sender target offer : String)
    (hpersonal : sio.members target = [target]) :
    webrtc_offer sender (some target) offer
      = [⟨"webrtc_offer", .webrtcOffer offer sender, some target, none⟩]
    ∧ sio.recipients ⟨"webrtc_offer", .webrtcOffer offer sender, some target, none⟩
      = [target] := by
  refine ⟨rfl, ?_⟩
  unfold SioState.recipients
  dsimp only
  rw [hpersonal]
  simp

/-- Witness for C6: in a two-connection state the offer from `"cA"`
targeted at `"cB"` reaches exactly `"cB"` with `from_sid = "cA"`. -/
theorem webrtc_offer_relay_witness :
    webrtc_offer "cA" (some "cB") "sdp-blob"
      = [⟨"webrtc_offer", .webrtcOffer "sdp-blob" "cA", some "cB", none⟩]
    ∧ (SioState.mk ["cA", "cB"] [("cA", ["cA"]), ("cB", ["cB"])]).recipients
        ⟨"webrtc_offer", .webrtcOffer "sdp-blob" "cA", some "cB", none⟩
      = ["cB"] :=
  webrtc_offer_relay ⟨["cA", "cB"], [("cA", ["cA"]), ("cB", ["cB"])]⟩
    "cA" "cB" "sdp-blob" rfl

/-- C8 counterexample: connection `"c1"` joins room `"A"` and then room
`"B"` without leaving; afterwards it is a member of both socket rooms at
once — the old binding is not replaced. -/
theorem join_two_rooms_counterexample :
    "c1" ∈ ((join_room_event
        (join_room_event ⟨["c1"], [("c1", ["c1"])]⟩ "c1" (some "A") none).1
        "c1" (some "B") none).1).members "A"
    ∧ "c1" ∈ ((join_room_event
        (join_room_event ⟨["c1"], [("c1", ["c1"])]⟩ "c1" (some "A") none).1
        "c1" (some "B") none).1).members "B" := by
  decide

/-- C8 amended: for room ids that pass the `if room_id:` truthiness guard,
the socket `join_room` event only ever adds a membership: after joining
room `rA` and then room `rB` the connection is a member of `rB`, and when
`rA ≠ rB` it is still a member of `rA` as well — a connection can be bound
to several rooms simultaneously. -/
theorem join_room_event_accumulates (sio : SioState) (sid rA rB : String)
    (pidA pidB : Option String) (hA : rA ≠ "") (hB : rB ≠ "") :
    sid ∈ ((join_room_event sio sid (some rA) pidA).1).members rA
    ∧ sid ∈ ((join_room_event (join_room_event sio sid (some rA) pidA).1
        sid (some rB) pidB).1).members rB
    ∧ (rA ≠ rB →
        sid ∈ ((join_room_event (join_room_event sio sid (some rA) pidA).1
          sid (some rB) pidB).1).members rA) := by
  have hmem : ∀ (s : SioState) (r : String),
      sid ∈ (s.enterRoom sid r).members r := by
    intro s r
    rw [members_enterRoom, if_pos rfl]
    by_cases h : sid ∈ s.members r
    · rw [if_pos h]; exact h
    · rw [if_neg h]; exact List.mem_append_right _ (List.mem_singleton.mpr rfl)
  rw [join_room_event_some sio sid rA pidA hA]
  show _ ∧ sid ∈ ((join_room_event (sio.enterRoom sid rA) sid (some rB) pidB).1).members rB ∧ _
  rw [join_room_event_some (sio.enterRoom sid rA) sid rB pidB hB]
  refine ⟨hmem sio rA, hmem _ rB, ?_⟩
  intro hne
  show sid ∈ (((sio.enterRoom sid rA).enterRoom sid rB).members rA)
  rw [members_enterRoom, if_neg hne]
  exact hmem sio rA

/-- Witness for the amended C8: joining `"A"` then `"B"` leaves `"c1"` in
both rooms. -/
theorem join_room_event_accumulates_witness :
    "c1" ∈ ((join_room_event ⟨["c1"], [("c1", ["c1"])]⟩ "c1" (some "A") none).1).members "A"
    ∧ "c1" ∈ ((join_room_event
        (join_room_event ⟨["c1"], [("c1", ["c1"])]⟩ "c1" (some "A") none).1
        "c1" (some "B") none).1).members "B"
    ∧ "c1" ∈ ((join_room_event
        (join_room_event ⟨["c1"], [("c1", ["c1"])]⟩ "c1" (some "A") none).1
        "c1" (some "B") none).1).members "A" := by
  obtain ⟨h1, h2, h3⟩ := join_room_event_accumulates
    ⟨["c1"], [("c1", ["c1"])]⟩ "c1" "A" "B" none none (by decide) (by decide)
  exact ⟨h1, h2, h3 (by decide)⟩

/-- C9 counterexample: the HTTP join emits its `participant_joined`
announcement with `skip_sid = none`, so in a state where the joining
client's own connection `"c1"` is already in the socket room, `"c1"`
receives the announcement of its own join — no connection is excluded. -/
theorem join_announcement_no_exclusion_counterexample :
    ((join_room ⟨[⟨"r1", "Demo", 0, [], 6⟩], [], []⟩ "r1" "Alice" "p9" 7).2.2.map
        Emit.skip_sid) = [none]
    ∧ ((join_room ⟨[⟨"r1", "Demo", 0, [], 6⟩], [], []⟩ "r1" "Alice" "p9" 7).2.2.map
        (fun e => (SioState.mk ["c1"] [("r1", ["c1"])]).recipients e)) = [["c1"]] := by
  constructor <;> rfl

/-- C9 amended: for a room id passing the `if room_id:` truthiness guard,
the socket-level `user_joined` announcement is emitted with `skip_sid` set
to the joiner, which therefore never receives it; the HTTP-level
`participant_joined` announcement is emitted with no exclusion
(`skip_sid = none`) and reaches every connection of the socket room. -/
theorem join_announcements_exclusion (sio : SioState) (sid rid : String)
    (pid : Option String) (db : DB) (pname fresh : String) (now : Nat)
    (hrid : rid ≠ "") :
    (join_room_event sio sid (some rid) pid).2
      = [⟨"user_joined", .userJoined sid pid, some rid, some sid⟩]
    ∧ sid ∉ (join_room_event sio sid (some rid) pid).1.recipients
        ⟨"user_joined", .userJoined sid pid, some rid, some sid⟩
    ∧ (∀ e ∈ (join_room db rid pname fresh now).2.2,
        e.skip_sid = none ∧ ∀ s' : SioState, s'.recipients e = s'.members rid) := by
  rw [join_room_event_some sio sid rid pid hrid]
  refine ⟨rfl, ?_, ?_⟩
  · unfold SioState.recipients
    dsimp only
    intro hmem
    have h2 := (List.mem_filter.mp hmem).2
    simp at h2
  · intro e he
    unfold join_room at he
    cases hfind : db.rooms.find? (fun r => r.id == rid) with
    | none => rw [hfind] at he; cases he
    | some room =>
      rw [hfind] at he
      dsimp only at he
      by_cases hfull : room.participants.length ≥ room.max_participants
      · rw [if_pos hfull] at he; cases he
      · rw [if_neg hfull] at he
        dsimp only at he
        rcases List.mem_singleton.mp he with rfl
        refine ⟨rfl, ?_⟩
        intro s'
        unfold SioState.recipients
        dsimp only
        exact List.filter_eq_self.mpr (fun a _ => by simp)

/-- Witness for the amended C9: the concrete socket join of `"c1"` into
`"r1"` skips `"c1"`, and the concrete HTTP join announcement reaches every
member of the socket room. -/
theorem join_announcements_exclusion_witness :
    (join_room_event ⟨["c1", "c2"], [("r1", ["c1", "c2"])]⟩ "c1" (some "r1") none).2
      = [⟨"user_joined", .userJoined "c1" none, some "r1", some "c1"⟩]
    ∧ "c1" ∉ (join_room_event ⟨["c1", "c2"], [("r1", ["c1", "c2"])]⟩ "c1" (some "r1") none).1.recipients
        ⟨"user_joined", .userJoined "c1" none, some "r1", some "c1"⟩
    ∧ ((⟨"participant_joined", .participantJoined ⟨"p9", "Alice", "r1", 7⟩ "r1",
          some "r1", none⟩ : Emit).skip_sid = none
       ∧ ∀ s' : SioState, s'.recipients
            ⟨"participant_joined", .participantJoined ⟨"p9", "Alice", "r1", 7⟩ "r1",
              some "r1", none⟩
          = s'.members "r1") := by
  obtain ⟨h1, h2, h3⟩ := join_announcements_exclusion
    ⟨["c1", "c2"], [("r1", ["c1", "c2"])]⟩ "c1" "r1" none
    ⟨[⟨"r1", "Demo", 0, [], 6⟩], [], []⟩ "Alice" "p9" 7 (by decide)
  exact ⟨h1, h2, h3 _ (by decide)⟩

end SignMeet
